import Mathlib

/-!
Shallow embedding of `pelagia.py` (markdown-folder-to-PDF pipeline):
slug assignment, heading anchor assignment, multi-strategy cross-document
link resolution, and mermaid diagram block normalization.

Conventions of the embedding:
* Python strings are modelled as Lean `String` / `List Char`; the corpus is
  ASCII text, so Python `str.lower` / `str.strip` are modelled at the ASCII level.
* Each `re.sub` call with its fixed pattern is modelled as an explicit
  left-to-right scanner mirroring `re.sub`'s leftmost-match, continue-after-match
  semantics (on failure at a position the scan advances one character).
* Scanners that are not structurally recursive take a fuel argument; every
  recursive call consumes at least one character, so fuel equal to the input
  length (supplied by the wrappers) never runs out.  This keeps every
  definition kernel-executable.
* `hashlib.sha1` is modelled by a full executable SHA-1 implementation.
* The external `mmdc` renderer subprocess is modelled as an oracle parameter
  `renderOk : Nat -> String -> Bool` (the ordinal and the normalized source
  determine the invocation); `die` (fatal abort) is modelled by `none`.
* File-system paths are modelled as lists of components; `Path.resolve()` is
  lexical normalization (no symlinks in the model).
-/

namespace Pelagia

/-- Python whitespace characters (`\s` for ASCII text, and `str.strip`). -/
def isPySpace (c : Char) : Bool :=
  c = ' ' || c = '\t' || c = '\n' || c = '\r' || c = '\x0b' || c = '\x0c'

/-- Python `str.strip()` on ASCII text. -/
def pyStrip (s : String) : String :=
  String.mk (((s.data.dropWhile isPySpace).reverse.dropWhile isPySpace).reverse)

/-- ASCII lower-casing of one character (Python `str.lower` on ASCII text). -/
def lowerChar (c : Char) : Char :=
  if 'A' ≤ c && c ≤ 'Z' then Char.ofNat (c.toNat + 32) else c

/-- Python `str.lower()` on ASCII text. -/
def pyLower (s : String) : String :=
  String.mk (s.data.map lowerChar)

/-- Take the first `n` characters of a string (Python `s[:n]`). -/
def strTake (s : String) (n : Nat) : String :=
  String.mk (s.data.take n)

/-- Drop the first `n` characters of a string (Python `s[n:]`). -/
def strDrop (s : String) (n : Nat) : String :=
  String.mk (s.data.drop n)

/-- Python `s.endswith(suffix)`. -/
def strEndsWith (s suf : String) : Bool :=
  suf.data.isSuffixOf s.data

/-- Python `s.startswith(pre)`. -/
def strStartsWith (s pre : String) : Bool :=
  pre.data.isPrefixOf s.data

/-- Python `c in s` for a single character. -/
def strContainsChar (s : String) (c : Char) : Bool :=
  s.data.contains c

/-- Does `needle` occur as a contiguous subsequence of the list? -/
def containsSeq (needle : List Char) : List Char → Bool
  | [] => needle.isEmpty
  | c :: rest => needle.isPrefixOf (c :: rest) || containsSeq needle rest

/-- Python `needle in hay` for strings. -/
def strContainsSub (hay needle : String) : Bool :=
  containsSeq needle.data hay.data

/-- Python `"\n".join(lines)`. -/
def joinLines : List String → String
  | [] => ""
  | [l] => l
  | l :: rest => l ++ "\n" ++ joinLines rest

/-- Split a character list on a separator character. -/
def splitChar (sep : Char) : List Char → List (List Char)
  | [] => [[]]
  | c :: rest =>
    if c = sep then [] :: splitChar sep rest
    else
      match splitChar sep rest with
      | [] => [[c]]
      | g :: gs => (c :: g) :: gs

/-- Python `text.splitlines()` for newline-separated ASCII text: split on the
newline character, without a final empty line for a trailing newline. -/
def pySplitlines (s : String) : List String :=
  if s = "" then []
  else
    match (splitChar '\n' s.data).reverse with
    | [] :: rest => rest.reverse.map String.mk
    | groups => groups.reverse.map String.mk

/-! ### slugify -/

/-- Scanner for the `re.sub(r"<[^>]+>", "", s)` pass of `slugify`: a `<` with at
least one following character before the next `>` is removed together with that
content and the `>`; otherwise characters pass through. -/
def stripTagsF : Nat → List Char → List Char
  | 0, l => l
  | _ + 1, [] => []
  | fuel + 1, '<' :: rest =>
    (match rest.dropWhile (fun c => !(c = '>')) with
     | '>' :: rest2 =>
       if (rest.takeWhile (fun c => !(c = '>'))).isEmpty then '<' :: stripTagsF fuel rest
       else stripTagsF fuel rest2
     | _ => '<' :: stripTagsF fuel rest)
  | fuel + 1, c :: rest => c :: stripTagsF fuel rest

/-- Remove `<...>` tags, as in `slugify`. -/
def stripTags (l : List Char) : List Char :=
  stripTagsF l.length l

/-- Is the character kept by the `[^a-z0-9\s\-]` removal pass of `slugify`
(after lower-casing)? -/
def slugAllowed (c : Char) : Bool :=
  ('a' ≤ c && c ≤ 'z') || ('0' ≤ c && c ≤ '9') || isPySpace c || c = '-'

/-- Scanner for `re.sub(r"[\s\-]+", "-", s)`: each maximal run of whitespace or
dashes collapses to a single dash.  The boolean state records whether the
previous character belonged to such a run. -/
def collapseDashGo : Bool → List Char → List Char
  | _, [] => []
  | inRun, c :: rest =>
    if isPySpace c || c = '-' then
      if inRun then collapseDashGo true rest else '-' :: collapseDashGo true rest
    else c :: collapseDashGo false rest

/-- Collapse whitespace/dash runs to single dashes, as in `slugify`. -/
def collapseDash (l : List Char) : List Char :=
  collapseDashGo false l

/-- Python `s.strip("-")` on a character list. -/
def stripDashEnds (l : List Char) : List Char :=
  ((l.dropWhile (· = '-')).reverse.dropWhile (· = '-')).reverse

/-- Embedding of `slugify` (pelagia.py lines 28-34). -/
def slugify (s : String) : String :=
  let s1 := pyLower (pyStrip s)
  let s2 := stripTags s1.data
  let s3 := s2.filter (fun c => !(c = '`' || c = '*' || c = '_' || c = '~'))
  let s4 := s3.filter slugAllowed
  let s5 := stripDashEnds (collapseDash s4)
  if s5.isEmpty then "section" else String.mk s5

/-! ### SHA-1 (model of `hashlib.sha1(...).hexdigest()`)
32-bit machine arithmetic is `Nat` with explicit `% 2^32`. -/

/-- Modulus for 32-bit words. -/
def M32 : Nat := 4294967296

/-- Rotate a 32-bit word (`n < 2^32`) left by `k` bits. -/
def rotl (k n : Nat) : Nat :=
  (n % 2 ^ (32 - k)) * 2 ^ k + n / 2 ^ (32 - k)

/-- Big-endian byte expansion of `n` to `count` bytes. -/
def beBytes (count n : Nat) : List Nat :=
  (List.range count).map (fun i => n / 2 ^ (8 * (count - 1 - i)) % 256)

/-- SHA-1 message padding: append `0x80`, zero bytes up to 56 mod 64, then the
64-bit big-endian bit length. -/
def sha1Pad (msg : List Nat) : List Nat :=
  let padLen := (119 - msg.length % 64) % 64
  msg ++ (128 :: List.replicate padLen 0) ++ beBytes 8 (msg.length * 8)

/-- Group a byte list into big-endian 32-bit words. -/
def toWords : List Nat → List Nat
  | a :: b :: c :: d :: rest => (((a * 256 + b) * 256 + c) * 256 + d) :: toWords rest
  | _ => []

/-- Extend the 16 chunk words to the 80 schedule words: `fuel` counts the
remaining words to produce, `i` is the index of the next word. -/
def sha1Extend : Nat → Nat → List Nat → List Nat
  | 0, _, w => w
  | fuel + 1, i, w =>
    sha1Extend fuel (i + 1)
      (w ++ [rotl 1 ((w.getD (i - 3) 0 ^^^ w.getD (i - 8) 0) ^^^
                     (w.getD (i - 14) 0 ^^^ w.getD (i - 16) 0))])

/-- The 80 compression rounds: `fuel` counts remaining rounds, `i` the index. -/
def sha1Rounds : Nat → Nat → List Nat → Nat → Nat → Nat → Nat → Nat →
    Nat × Nat × Nat × Nat × Nat
  | 0, _, _, a, b, c, d, e => (a, b, c, d, e)
  | fuel + 1, i, w, a, b, c, d, e =>
    let f :=
      if i < 20 then (b &&& c) ||| ((M32 - 1 - b) &&& d)
      else if i < 40 then (b ^^^ c) ^^^ d
      else if i < 60 then ((b &&& c) ||| (b &&& d)) ||| (c &&& d)
      else (b ^^^ c) ^^^ d
    let k :=
      if i < 20 then 1518500249
      else if i < 40 then 1859775393
      else if i < 60 then 2400959708
      else 3395469782
    let temp := (rotl 5 a + f + e + k + w.getD i 0) % M32
    sha1Rounds fuel (i + 1) w temp a (rotl 30 b) c d

/-- Process the padded message chunk by chunk (`fuel` bounds the chunk count). -/
def sha1Chunks : Nat → List Nat → Nat × Nat × Nat × Nat × Nat →
    Nat × Nat × Nat × Nat × Nat
  | 0, _, hs => hs
  | _ + 1, [], hs => hs
  | fuel + 1, b0 :: brest, (h0, h1, h2, h3, h4) =>
    let bytes := b0 :: brest
    let w := sha1Extend 64 16 (toWords (bytes.take 64))
    let s := sha1Rounds 80 0 w h0 h1 h2 h3 h4
    sha1Chunks fuel (bytes.drop 64)
      ((h0 + s.1) % M32, (h1 + s.2.1) % M32, (h2 + s.2.2.1) % M32,
       (h3 + s.2.2.2.1) % M32, (h4 + s.2.2.2.2) % M32)

/-- One hex digit character. -/
def hexChar (n : Nat) : Char :=
  if n < 10 then Char.ofNat (48 + n) else Char.ofNat (87 + n)

/-- Fixed-width (8 hex digits) rendering of a 32-bit word. -/
def hexWord (n : Nat) : List Char :=
  (List.range 8).map (fun i => hexChar (n / 2 ^ (4 * (7 - i)) % 16))

/-- Bytes of an ASCII string (UTF-8 is the identity on ASCII). -/
def strBytes (s : String) : List Nat :=
  s.data.map Char.toNat

/-- Hex digest of SHA-1 over a byte list. -/
def sha1HexBytes (msg : List Nat) : String :=
  let padded := sha1Pad msg
  let r := sha1Chunks padded.length padded
    (1732584193, 4023233417, 2562383102, 271733878, 3285377520)
  String.mk (hexWord r.1 ++ hexWord r.2.1 ++ hexWord r.2.2.1 ++ hexWord r.2.2.2.1 ++
    hexWord r.2.2.2.2)

/-- Model of `hashlib.sha1(s.encode("utf-8")).hexdigest()` for ASCII `s`. -/
def sha1hex (s : String) : String :=
  sha1HexBytes (strBytes s)

/-- Embedding of `safe_file_slug` (pelagia.py lines 41-45), phrased over the
root-relative posix path `rel` of the document (`rel = md_path.resolve().
relative_to(root.resolve()).as_posix()` in the source). -/
def safe_file_slug (rel : String) : String :=
  slugify (String.mk (rel.data.map (fun c => if c = '/' then ' ' else c))) ++ "-" ++
    strTake (sha1hex rel) 8

/-! ### Link targets and URL detection -/

/-- Embedding of `split_link_target` (pelagia.py lines 48-52): split at the
first `#` (Python `target.split("#", 1)`), `(target, "")` when there is none. -/
def split_link_target (t : String) : String × String :=
  let pre := t.data.takeWhile (fun c => !(c = '#'))
  match t.data.dropWhile (fun c => !(c = '#')) with
  | [] => (t, "")
  | _ :: rest => (String.mk pre, String.mk rest)

/-- ASCII letter. -/
def isAsciiAlpha (c : Char) : Bool :=
  ('a' ≤ c && c ≤ 'z') || ('A' ≤ c && c ≤ 'Z')

/-- Character class `[a-zA-Z0-9+\-.]` of the URL-scheme regex. -/
def isSchemeChar (c : Char) : Bool :=
  isAsciiAlpha c || ('0' ≤ c && c ≤ '9') || c = '+' || c = '-' || c = '.'

/-- Embedding of `looks_like_url` (pelagia.py lines 55-58):
`re.match(r"^[a-zA-Z][a-zA-Z0-9+\-.]*://", s)` or a `mailto:` target. -/
def looks_like_url (s : String) : Bool :=
  (match s.data with
   | c :: rest => isAsciiAlpha c && "://".data.isPrefixOf (rest.dropWhile isSchemeChar)
   | [] => false) || strStartsWith s "mailto:"

/-! ### Path model

Paths are lists of components, as produced by `pathlib` parsing: splitting on
`/` discards empty components and `.`; `..` is kept and handled by `resolve()`.
-/

/-- `pathlib` component parsing of a path string. -/
def splitParts (s : String) : List String :=
  ((splitChar '/' s.data).map String.mk).filter (fun c => !(c == "") && !(c == "."))

/-- `PurePosixPath(s).is_absolute()`. -/
def isAbsolutePath (s : String) : Bool :=
  strStartsWith s "/"

/-- `PurePosixPath(s).name` (final component; empty for a root or empty path). -/
def pathName (s : String) : String :=
  (splitParts s).getLastD ""

/-- `Path.resolve()` of `base / rel` for an already-resolved absolute `base`:
process components left to right, `..` popping one component (no symlinks in
the model). -/
def resolveParts (base : List String) (rel : List String) : List String :=
  rel.foldl (fun acc c => if c == ".." then acc.dropLast else acc ++ [c]) base

/-- Join components with `/` (`as_posix` of a relative path). -/
def joinSlash : List String → String
  | [] => ""
  | [p] => p
  | p :: rest => p ++ "/" ++ joinSlash rest

/-! ### Cross-document link resolution (`rewrite_links`, pelagia.py lines 212-286) -/

/-- Context of one `add_ids_and_rewrite_links` call: the resolved components of
the corpus root (`folder_root`), the table `file_slug_by_md_rel` in insertion
order, and the current file's root-relative posix path. -/
structure LinkCtx where
  rootParts : List String
  table : List (String × String)
  curRel : String
deriving DecidableEq

/-- Python `file_slug_by_md_rel.get(k)`. -/
def lookup (table : List (String × String)) (k : String) : Option String :=
  (table.find? (fun kv => kv.1 == k)).map (·.2)

/-- Python truthiness of the `linked_slug` variable (`None` and `""` are falsy). -/
def truthy : Option String → Bool
  | some s => !(s == "")
  | none => false

/-- Components of `current_file.parent`. -/
def curParent (ctx : LinkCtx) : List String :=
  ctx.rootParts ++ (splitParts ctx.curRel).dropLast

/-- `resolved.relative_to(folder_root.resolve()).as_posix()` for `res` with the
root components as a prefix. -/
def relativeToRoot (ctx : LinkCtx) (res : List String) : String :=
  let remain := res.drop ctx.rootParts.length
  if remain.isEmpty then "." else joinSlash remain

/-- `folder_root.name`. -/
def folderName (ctx : LinkCtx) : String :=
  ctx.rootParts.getLastD ""

/-- Strategy 1: direct table lookup of the slash-normalized path. -/
def strat1 (ctx : LinkCtx) (ppn : String) : Option String :=
  lookup ctx.table ppn

/-- Strategy 2: resolve relative to the current file's directory and look up the
root-relative form (`none` when absolute, or resolving outside the root). -/
def strat2 (ctx : LinkCtx) (pp : String) : Option String :=
  if isAbsolutePath pp then none
  else if ctx.rootParts.isPrefixOf (resolveParts (curParent ctx) (splitParts pp)) then
    lookup ctx.table (relativeToRoot ctx (resolveParts (curParent ctx) (splitParts pp)))
  else none

/-- Strategy 3: strip a leading `<folder name>/` prefix and retry the lookup. -/
def strat3 (ctx : LinkCtx) (ppn : String) : Option String :=
  if strStartsWith ppn (folderName ctx ++ "/") then
    lookup ctx.table (strDrop ppn ((folderName ctx).length + 1))
  else none

/-- The known relative paths whose filename equals the target's filename
(`matching_files` of strategy 4). -/
def fileNameMatches (ctx : LinkCtx) (ppn : String) : List String :=
  (ctx.table.map (·.1)).filter (fun rel => pathName rel == pathName ppn)

/-- Strategy 4: unique-filename match, only when the path contains a slash. -/
def strat4 (ctx : LinkCtx) (ppn : String) : Option String :=
  if strContainsChar ppn '/' then
    match fileNameMatches ctx ppn with
    | [k] => lookup ctx.table k
    | _ => none
  else none

/-- The `linked_slug` update of strategy 2 (runs only when the previous value is
falsy; keeps the previous value when not applicable). -/
def step2 (ctx : LinkCtx) (pp : String) (prev : Option String) : Option String :=
  if truthy prev then prev
  else if isAbsolutePath pp then prev
  else if ctx.rootParts.isPrefixOf (resolveParts (curParent ctx) (splitParts pp)) then
    lookup ctx.table (relativeToRoot ctx (resolveParts (curParent ctx) (splitParts pp)))
  else prev

/-- The `linked_slug` update of strategy 3. -/
def step3 (ctx : LinkCtx) (ppn : String) (prev : Option String) : Option String :=
  if truthy prev then prev
  else if strStartsWith ppn (folderName ctx ++ "/") then
    lookup ctx.table (strDrop ppn ((folderName ctx).length + 1))
  else prev

/-- The `linked_slug` update of strategy 4. -/
def step4 (ctx : LinkCtx) (ppn : String) (prev : Option String) : Option String :=
  if truthy prev then prev
  else if strContainsChar ppn '/' then
    match fileNameMatches ctx ppn with
    | [k] => lookup ctx.table k
    | _ => prev
  else prev

/-- The full `linked_slug` chain: strategies 1-4 in source order. -/
def resolveChain (ctx : LinkCtx) (pp ppn : String) : Option String :=
  step4 ctx ppn (step3 ctx ppn (step2 ctx pp (strat1 ctx ppn)))

/-- Python `path_part.replace("\\", "/")`. -/
def backslashToSlash (s : String) : String :=
  String.mk (s.data.map (fun c => if c = '\\' then '/' else c))

/-- Embedding of the `repl` callback of `rewrite_links` (pelagia.py lines
213-284), on one matched link `[label](rawTarget)`. -/
def repl (ctx : LinkCtx) (label rawTarget : String) : String :=
  let orig := "[" ++ label ++ "](" ++ rawTarget ++ ")"
  let target := pyStrip rawTarget
  if looks_like_url target then orig
  else
    let pf := split_link_target target
    let path_part := pyStrip pf.1
    let frag := pf.2
    if (path_part == "") || strStartsWith path_part "#" then orig
    else if !(strEndsWith (pyLower path_part) ".md" ||
              strEndsWith (pyLower path_part) ".markdown") then orig
    else
      let ppn := backslashToSlash path_part
      match resolveChain ctx path_part ppn with
      | some s =>
        if !(s == "") then
          if !(frag == "") then
            "[" ++ label ++ "](#" ++ s ++ "-" ++ slugify frag ++ ")"
          else "[" ++ label ++ "](#" ++ s ++ ")"
        else orig
      | none => orig

/-- One attempted `MD_LINK_RE` match starting right after a `[`:
`label` up to the first `]`, then `](`, then `target` up to the first `)`;
both groups require at least one character. -/
def linkParse (rest : List Char) : Option (String × String × List Char) :=
  match rest.takeWhile (fun c => !(c = ']')), rest.dropWhile (fun c => !(c = ']')) with
  | [], _ => none
  | lbl, ']' :: '(' :: r2 =>
    (match r2.takeWhile (fun c => !(c = ')')), r2.dropWhile (fun c => !(c = ')')) with
     | [], _ => none
     | tgt, ')' :: r4 => some (String.mk lbl, String.mk tgt, r4)
     | _, _ => none)
  | _, _ => none

/-- Scanner for `MD_LINK_RE.sub(repl, text)`. -/
def linkScanF (f : String → String → String) : Nat → List Char → List Char
  | 0, l => l
  | _ + 1, [] => []
  | fuel + 1, '[' :: rest =>
    (match linkParse rest with
     | some (label, target, r4) => (f label target).data ++ linkScanF f fuel r4
     | none => '[' :: linkScanF f fuel rest)
  | fuel + 1, c :: rest => c :: linkScanF f fuel rest

/-- Embedding of `rewrite_links` (pelagia.py lines 212-286) over a whole text. -/
def rewrite_links (ctx : LinkCtx) (text : String) : String :=
  String.mk (linkScanF (repl ctx) text.data.length text.data)

/-! ### Mermaid block normalization (`render_mermaid_blocks`, pelagia.py lines 61-183) -/

/-- Word character (`\w`) for ASCII text. -/
def isWordChar (c : Char) : Bool :=
  ('a' ≤ c && c ≤ 'z') || ('A' ≤ c && c ≤ 'Z') || ('0' ≤ c && c ≤ '9') || c = '_'

/-- ASCII upper-case letter (`[A-Z]`). -/
def isUpperAZ (c : Char) : Bool :=
  'A' ≤ c && c ≤ 'Z'

/-- The `(flowchart|graph)` alternation at the current position. -/
def flowKeyword (l : List Char) : Option (String × List Char) :=
  if "flowchart".data.isPrefixOf l then some ("flowchart", l.drop 9)
  else if "graph".data.isPrefixOf l then some ("graph", l.drop 5)
  else none

/-- A full match of `(flowchart|graph)\s+[A-Z]{2}\b` at the current position:
keyword, at least one whitespace character, two capitals, then a word
boundary; returns the keyword and the remainder after the direction token. -/
def flowMatch (l : List Char) : Option (String × List Char) :=
  match flowKeyword l with
  | none => none
  | some (kw, r) =>
    if (r.takeWhile isPySpace).isEmpty then none
    else
      match r.dropWhile isPySpace with
      | a :: b :: rest3 =>
        if isUpperAZ a && isUpperAZ b &&
           !(match rest3 with | c :: _ => isWordChar c | [] => false) then
          some (kw, rest3)
        else none
      | _ => none

/-- Scanner for `re.sub(r"^(flowchart|graph)\s+[A-Z]{2}\b", rf"\1 {fd}", src,
flags=re.MULTILINE)`: matches may start only at the start of the text or right
after a newline. -/
def flowDirScanF (fd : String) : Nat → Bool → List Char → List Char
  | 0, _, l => l
  | _ + 1, _, [] => []
  | fuel + 1, atStart, c :: rest =>
    if atStart then
      match flowMatch (c :: rest) with
      | some (kw, rest3) => kw.data ++ (' ' :: fd.data) ++ flowDirScanF fd fuel false rest3
      | none => c :: flowDirScanF fd fuel (c = '\n') rest
    else c :: flowDirScanF fd fuel (c = '\n') rest

/-- Rule 4 of §4.2: rewrite the flow-direction token to the override. -/
def applyFlowDir (fd : String) (s : String) : String :=
  String.mk (flowDirScanF fd s.data.length true s.data)

/-- Scanner for `re.sub(r"\\n\s*\(", r" (", src)` (rule 1, first half):
a literal backslash-n, optional whitespace, then `(` becomes a space and `(`. -/
def fixNLParenF : Nat → List Char → List Char
  | 0, l => l
  | _ + 1, [] => []
  | fuel + 1, '\\' :: 'n' :: rest =>
    (match rest.dropWhile isPySpace with
     | '(' :: r2 => ' ' :: '(' :: fixNLParenF fuel r2
     | _ => '\\' :: fixNLParenF fuel ('n' :: rest))
  | fuel + 1, c :: rest => c :: fixNLParenF fuel rest

/-- Rule 1, first half, over a string. -/
def fixNewlineParen (s : String) : String :=
  String.mk (fixNLParenF s.data.length s.data)

/-- Scanner for `re.sub(r"\\n", " ", src)` (rule 1, second half). -/
def fixNLGo : List Char → List Char
  | [] => []
  | '\\' :: 'n' :: rest => ' ' :: fixNLGo rest
  | c :: rest => c :: fixNLGo rest

/-- Rule 1, second half, over a string. -/
def fixNewlines (s : String) : String :=
  String.mk (fixNLGo s.data)

/-- Embedding of the `quote_edge_label` callback (pelagia.py lines 102-107):
`arrow` is group 1, `label` group 2; the whole match is `arrow|label|`. -/
def quote_edge_label (arrow label : String) : String :=
  if strStartsWith label "\"" || !(strContainsChar label '(' || strContainsChar label ')')
  then arrow ++ "|" ++ label ++ "|"
  else arrow ++ "|\"" ++ label ++ "\"|"

/-- Parse `|label|` (the `\|([^|]+)\|` tail of the edge-label pattern) given the
characters after the first `|`. -/
def edgeLabelSplit (r2 : List Char) : Option (List Char × List Char) :=
  match r2.takeWhile (fun c => !(c = '|')), r2.dropWhile (fun c => !(c = '|')) with
  | [], _ => none
  | label, '|' :: r4 => some (label, r4)
  | _, _ => none

/-- Scanner for `re.sub(r"(--+[->]?)\|([^|]+)\|", quote_edge_label, src)`. -/
def edgeScanF : Nat → List Char → List Char
  | 0, l => l
  | _ + 1, [] => []
  | fuel + 1, '-' :: '-' :: rest =>
    let dashes := rest.takeWhile (fun c => c = '-')
    (match rest.dropWhile (fun c => c = '-') with
     | '>' :: '|' :: r2 =>
       (match edgeLabelSplit r2 with
        | some (label, r4) =>
          (quote_edge_label (String.mk ('-' :: '-' :: dashes ++ ['>'])) (String.mk label)).data
            ++ edgeScanF fuel r4
        | none => '-' :: edgeScanF fuel ('-' :: rest))
     | '|' :: r2 =>
       (match edgeLabelSplit r2 with
        | some (label, r4) =>
          (quote_edge_label (String.mk ('-' :: '-' :: dashes)) (String.mk label)).data
            ++ edgeScanF fuel r4
        | none => '-' :: edgeScanF fuel ('-' :: rest))
     | _ => '-' :: edgeScanF fuel ('-' :: rest))
  | fuel + 1, c :: rest => c :: edgeScanF fuel rest

/-- Rule 2 of §4.2 over a string. -/
def quoteEdgeLabels (s : String) : String :=
  String.mk (edgeScanF s.data.length s.data)

/-- Embedding of the `quote_node_label` callback (pelagia.py lines 114-123):
`pfx` is the optional group 1 (`None` when absent), `label` group 2.  The
Python replacement f-string renders an absent group 1 as the literal text
`None`; the unchanged branches return the matched text, where an absent
group 1 contributes nothing. -/
def quote_node_label (pfx : Option String) (label : String) : String :=
  let matched := (pfx.getD "") ++ "[" ++ label ++ "]"
  if strStartsWith label "\"" then matched
  else if strContainsChar label '(' || strContainsChar label ')' then
    (match pfx with | some s => s | none => "None") ++ "[\"" ++ label ++ "\"]"
  else matched

/-- Parse `label]` (the `\[([^\]]+)\]` tail of the node-label pattern) given
the characters after the `[`. -/
def nodeLabelSplit (r2 : List Char) : Option (List Char × List Char) :=
  match r2.takeWhile (fun c => !(c = ']')), r2.dropWhile (fun c => !(c = ']')) with
  | [], _ => none
  | label, ']' :: r4 => some (label, r4)
  | _, _ => none

/-- Scanner for `re.sub(r"(\w+)?\[([^\]]+)\]", quote_node_label, src)`: a
maximal word-character run immediately before `[` is group 1 (no match can
start strictly inside such a run, because `[` never occurs there). -/
def nodeScanF : Nat → List Char → List Char
  | 0, l => l
  | _ + 1, [] => []
  | fuel + 1, c :: rest =>
    if isWordChar c then
      let run := (c :: rest).takeWhile isWordChar
      (match (c :: rest).dropWhile isWordChar with
       | '[' :: r2 =>
         (match nodeLabelSplit r2 with
          | some (label, r4) =>
            (quote_node_label (some (String.mk run)) (String.mk label)).data
              ++ nodeScanF fuel r4
          | none => run ++ '[' :: nodeScanF fuel r2)
       | r1 => run ++ nodeScanF fuel r1)
    else if c = '[' then
      (match nodeLabelSplit rest with
       | some (label, r4) => (quote_node_label none (String.mk label)).data ++ nodeScanF fuel r4
       | none => '[' :: nodeScanF fuel rest)
    else c :: nodeScanF fuel rest

/-- Rule 3 of §4.2 over a string. -/
def quoteNodeLabels (s : String) : String :=
  String.mk (nodeScanF s.data.length s.data)

/-- The diagram-source normalization of `render_mermaid_blocks` (pelagia.py
lines 86-128), in source order: join and strip the block, apply the
flow-direction rewrite when configured, then rules 1, 2 and 3. -/
def normalize_mermaid_src (fd : Option String) (block : List String) : String :=
  let src0 := pyStrip (joinLines block) ++ "\n"
  let src1 :=
    match fd with
    | some d => applyFlowDir d src0
    | none => src0
  let src2 := fixNewlineParen src1
  let src3 := fixNewlines src2
  let src4 := quoteEdgeLabels src3
  quoteNodeLabels src4

/-- Modelled from the spec: the §4.2 rule order as the spec lists it — rules
1, 2, 3 first and the flow-direction rewrite last.  Comparison definition for
C6; the source applies the flow-direction rewrite first. -/
def normalize_mermaid_src_spec_order (fd : Option String) (block : List String) : String :=
  let src0 := pyStrip (joinLines block) ++ "\n"
  let src1 := fixNewlineParen src0
  let src2 := fixNewlines src1
  let src3 := quoteEdgeLabels src2
  let src4 := quoteNodeLabels src3
  match fd with
  | some d => applyFlowDir d src4
  | none => src4

/-- `MERMAID_FENCE_RE` (`^```mermaid\s*$`, case-insensitive) on one line. -/
def isMermaidFence (line : String) : Bool :=
  strStartsWith line "```" &&
    (let r := strDrop (pyLower line) 3
     strStartsWith r "mermaid" && (strDrop r 7).data.all isPySpace)

/-- `FENCE_END_RE` (`^```\s*$`) on one line. -/
def isFenceEnd (line : String) : Bool :=
  strStartsWith line "```" && (strDrop line 3).data.all isPySpace

/-- The inner `while` of `render_mermaid_blocks` that collects block lines up
to the closing fence: `none` when no closing fence exists (the `die` case). -/
def splitBlock : List String → Option (List String × List String)
  | [] => none
  | l :: ls =>
    if isFenceEnd l then some ([], ls)
    else (splitBlock ls).map (fun br => (l :: br.1, br.2))

/-- The placeholder emitted for a failed diagram render. -/
def mermaidPlaceholder : String :=
  "*[Mermaid diagram could not be rendered - check syntax]*"

/-- The main scan loop of `render_mermaid_blocks` over the line list, with the
running `mermaid_idx` ordinal.  `renderOk` is the external-renderer oracle;
`none` models the fatal `die` on an unterminated block. -/
def renderGoF (renderOk : Nat → String → Bool) (dir pfx : String) (fd : Option String) :
    Nat → List String → Nat → Option (List String)
  | 0, lines, _ => some lines
  | _ + 1, [], _ => some []
  | fuel + 1, l :: ls, idx =>
    if isMermaidFence l then
      match splitBlock ls with
      | none => none
      | some (block, rest) =>
        let src := normalize_mermaid_src fd block
        let mhash := strTake (sha1hex src) 12
        if renderOk idx src then
          (renderGoF renderOk dir pfx fd fuel rest (idx + 1)).map
            (fun out => ("![](" ++ dir ++ "/mermaid-" ++ pfx ++ "-" ++ Nat.repr idx ++
              "-" ++ mhash ++ ".png)") :: out)
        else
          (renderGoF renderOk dir pfx fd fuel rest (idx + 1)).map
            (fun out => mermaidPlaceholder :: out)
    else (renderGoF renderOk dir pfx fd fuel ls idx).map (fun out => l :: out)

/-- Embedding of `render_mermaid_blocks` (pelagia.py lines 61-183):
`dir` is `diagrams_dir.as_posix()`, `pfx` the `diagram_key_prefix`.  The
width/height arguments only reach the external subprocess and are absorbed
into the `renderOk` oracle. -/
def render_mermaid_blocks (renderOk : Nat → String → Bool) (dir pfx : String)
    (fd : Option String) (md_text : String) : Option String :=
  let lines := pySplitlines md_text
  (renderGoF renderOk dir pfx fd lines.length lines 0).map (fun out => joinLines out ++ "\n")

/-! ### Heading anchors (`add_ids_and_rewrite_links`, pelagia.py lines 186-298) -/

/-- `ATX_HEADING_RE.match(line)` (`^(#{1,6})\s+(.+?)\s*$`), returning
`(hashes, title)` = (group 1, group 2).  The match requires one to six `#`,
then at least one whitespace character and at least one further character;
group 2 excludes the leading whitespace run and trailing whitespace (when
everything after the hashes is whitespace, the lazy group holds exactly the
final whitespace character). -/
def atxMatch (line : String) : Option (String × String) :=
  let l := line.data
  let hashes := l.takeWhile (fun c => c = '#')
  let rest := l.dropWhile (fun c => c = '#')
  if hashes.length = 0 || 6 < hashes.length then none
  else
    match rest with
    | [] => none
    | c :: rtail =>
      if !(isPySpace c) then none
      else if rtail.isEmpty then none
      else
        let t := rest.dropWhile isPySpace
        if t.isEmpty then some (String.mk hashes, String.mk [rest.getLastD ' '])
        else some (String.mk hashes, String.mk ((t.reverse.dropWhile isPySpace).reverse))

/-- Embedding of `make_unique_id` (pelagia.py lines 195-198) with the
`heading_counts` dictionary threaded explicitly. -/
def make_unique_id (counts : List (String × Nat)) (base : String) :
    String × List (String × Nat) :=
  let n := (((counts.find? (fun kv => kv.1 == base)).map (·.2)).getD 0) + 1
  (if n = 1 then base else base ++ "-" ++ Nat.repr n,
   (base, n) :: counts.filter (fun kv => !(kv.1 == base)))

/-- Embedding of `rewrite_heading_line` (pelagia.py lines 200-210); also
returns the assigned id, when one is assigned. -/
def rewrite_heading_line (file_slug : String) (counts : List (String × Nat))
    (line : String) : String × List (String × Nat) × Option String :=
  match atxMatch line with
  | none => (line, counts, none)
  | some (hashes, title) =>
    if strContainsSub title "\x7b#" then (line, counts, none)
    else
      let clean_title := pyStrip title
      let base := file_slug ++ "-" ++ slugify clean_title
      let hc := make_unique_id counts base
      (hashes ++ " " ++ clean_title ++ " \x7b#" ++ hc.1 ++ "\x7d", hc.2, some hc.1)

/-- The per-line heading pass of `add_ids_and_rewrite_links` (the `for line in
lines` loop), returning the rewritten lines and the assigned ids in order. -/
def headingFold (file_slug : String) (counts : List (String × Nat)) :
    List String → List String × List String
  | [] => ([], [])
  | l :: ls =>
    let r := rewrite_heading_line file_slug counts l
    let rec_result := headingFold file_slug r.2.1 ls
    (r.1 :: rec_result.1,
     match r.2.2 with
     | some i => i :: rec_result.2
     | none => rec_result.2)

/-- Embedding of `add_ids_and_rewrite_links` (pelagia.py lines 186-298): the
zero-width top anchor, a blank line, the heading pass over every line, then
`rewrite_links` over the joined text. -/
def add_ids_and_rewrite_links (ctx : LinkCtx) (file_slug : String) (md_text : String) :
    String :=
  let lines := pySplitlines md_text
  let outLines := ("[]\x7b#" ++ file_slug ++ "\x7d") :: "" ::
    (headingFold file_slug [] lines).1
  rewrite_links ctx (joinLines outLines ++ "\n")

/-! ### Corpus-level anchor ids (for C1) -/

/-- All anchor ids assigned for one document `(rel, text)`: the top anchor
(the document slug) inserted by `add_ids_and_rewrite_links`, then one id per
processed heading line in order. -/
def docAnchorIds (doc : String × String) : List String :=
  let slug := safe_file_slug doc.1
  slug :: (headingFold slug [] (pySplitlines doc.2)).2

/-- All anchor ids assigned over a corpus, in document order. -/
def corpusAnchorIds (docs : List (String × String)) : List String :=
  (docs.map docAnchorIds).flatten

/-- Does the Heading Anchor Assigner assign an id to this line?  (It matches
the heading grammar and carries no explicit `{#` marker.) -/
def isProcessedHeading (line : String) : Bool :=
  match atxMatch line with
  | some ht => !(strContainsSub ht.2 "\x7b#")
  | none => false

/-- Number of lines of a document that receive a heading id. -/
def processedHeadingCount (text : String) : Nat :=
  (pySplitlines text).countP isProcessedHeading

/-! ## Theorems -/

set_option maxRecDepth 40000

/-- C7: an edge label delimited by pipes after an arrow token is wrapped in
double quotes when it is unquoted and contains a parenthesis; a label that
already starts with a quote, or contains no parenthesis, is left unchanged
(the unchanged result is the matched text `arrow|label|`). -/
theorem quote_edge_label_cases (arrow label : String) :
    (strStartsWith label "\"" = false →
      (strContainsChar label '(' = true ∨ strContainsChar label ')' = true) →
      quote_edge_label arrow label = arrow ++ "|\"" ++ label ++ "\"|") ∧
    (strStartsWith label "\"" = true →
      quote_edge_label arrow label = arrow ++ "|" ++ label ++ "|") ∧
    (strContainsChar label '(' = false → strContainsChar label ')' = false →
      quote_edge_label arrow label = arrow ++ "|" ++ label ++ "|") := by
  refine ⟨?_, ?_, ?_⟩
  · intro h1 h2
    have hc : (strStartsWith label "\"" ||
        !(strContainsChar label '(' || strContainsChar label ')')) = false := by
      rcases h2 with h2 | h2 <;> simp [h1, h2]
    unfold quote_edge_label
    rw [hc]
    simp
  · intro h1
    simp [quote_edge_label, h1]
  · intro h1 h2
    simp [quote_edge_label, h1, h2]

/-- Witness for C7 on the spec's own examples. -/
theorem quote_edge_label_cases_witness :
    quote_edge_label "-->" "ok (x)" = "-->|\"ok (x)\"|" ∧
    quote_edge_label "-->" "\"ok (x)\"" = "-->|\"ok (x)\"|" ∧
    quote_edge_label "-->" "ok" = "-->|ok|" := by
  refine ⟨?_, ?_, ?_⟩
  · exact ((quote_edge_label_cases "-->" "ok (x)").1 (by decide) (Or.inl (by decide))).trans
      (by decide)
  · exact ((quote_edge_label_cases "-->" "\"ok (x)\"").2.1 (by decide)).trans (by decide)
  · exact ((quote_edge_label_cases "-->" "ok").2.2 (by decide) (by decide)).trans (by decide)

/-- C8: evaluation of the node-label repair at a label with no preceding
identifier.  The replacement f-string renders the absent group 1 as the
literal text `None`, so the surrounding text is NOT preserved: the code's own
comment (`ID[text (parens)] -> ID["text (parens)"]`, `# ID or empty`)
promises `["hi (x)"]` here. -/
theorem quote_node_label_none_bug :
    quoteNodeLabels "[hi (x)]" = "None[\"hi (x)\"]" ∧
    quote_node_label (some "A") "hi (x)" = "A[\"hi (x)\"]" := by
  constructor <;> decide

/-- C6 counterexample: the source applies the flow-direction rewrite before
rules 1-3, not after them as the claim states; on a block whose direction
token is hidden behind a literal line-break escape the two orders differ. -/
theorem mermaid_rule_order_counterexample :
    normalize_mermaid_src (some "LR") ["flowchart\\nTD", "A[x]"] ≠
      normalize_mermaid_src_spec_order (some "LR") ["flowchart\\nTD", "A[x]"] := by
  decide

/-- C6 (amended): when a flow-direction override is configured the repair
rules are applied in the order: flow-direction rewrite FIRST, then
line-break-escape replacement, then edge-label quoting, then node-label
quoting. -/
theorem normalize_mermaid_src_order (fd : String) (block : List String) :
    normalize_mermaid_src (some fd) block =
      quoteNodeLabels (quoteEdgeLabels (fixNewlines (fixNewlineParen
        (applyFlowDir fd (pyStrip (joinLines block) ++ "\n"))))) := rfl

/-- C5: when the render of one diagram block fails, the block is replaced by
the fixed placeholder at the position the block occupied, the per-document
ordinal still increments exactly once, and the scan continues with the
remaining lines (the failure never yields the fatal `none`). -/
theorem renderGo_failure_placeholder (renderOk : Nat → String → Bool) (dir pfx : String)
    (fd : Option String) (fuel : Nat) (l : String) (ls block rest : List String) (idx : Nat)
    (hf : isMermaidFence l = true)
    (hsb : splitBlock ls = some (block, rest))
    (hr : renderOk idx (normalize_mermaid_src fd block) = false) :
    renderGoF renderOk dir pfx fd (fuel + 1) (l :: ls) idx =
      (renderGoF renderOk dir pfx fd fuel rest (idx + 1)).map
        (fun out => mermaidPlaceholder :: out) := by
  simp [renderGoF, hf, hsb, hr]

/-- Witness for C5: a corpus line list with one failing diagram block; the
output carries the placeholder in the block's position and the following
content is processed unaffected. -/
theorem renderGo_failure_placeholder_witness :
    renderGoF (fun _ _ => false) "d" "p" none 4 ["```mermaid", "A-->B", "```", "tail"] 0 =
      some [mermaidPlaceholder, "tail"] := by
  have h := renderGo_failure_placeholder (fun _ _ => false) "d" "p" none 3 "```mermaid"
    ["A-->B", "```", "tail"] ["A-->B"] ["tail"] 0 (by decide) (by decide) rfl
  rw [h]; decide

/-! Step lemmas relating the `linked_slug` updates to the strategy views. -/

theorem step2_keep (ctx : LinkCtx) (pp : String) (prev : Option String)
    (hp : truthy prev = true) : step2 ctx pp prev = prev := by
  simp [step2, hp]

theorem step3_keep (ctx : LinkCtx) (ppn : String) (prev : Option String)
    (hp : truthy prev = true) : step3 ctx ppn prev = prev := by
  simp [step3, hp]

theorem step4_keep (ctx : LinkCtx) (ppn : String) (prev : Option String)
    (hp : truthy prev = true) : step4 ctx ppn prev = prev := by
  simp [step4, hp]

theorem step2_of_strat2_some (ctx : LinkCtx) (pp : String) (prev : Option String)
    (s : String) (hp : truthy prev = false) (h : strat2 ctx pp = some s) :
    step2 ctx pp prev = some s := by
  unfold strat2 at h
  unfold step2
  rw [hp]
  split at h
  · exact absurd h (by simp)
  · split at h
    · simp_all
    · exact absurd h (by simp)

theorem step2_falsy (ctx : LinkCtx) (pp : String) (prev : Option String)
    (hp : truthy prev = false) (h : truthy (strat2 ctx pp) = false) :
    truthy (step2 ctx pp prev) = false := by
  unfold strat2 at h
  unfold step2
  rw [hp]
  split at h
  · simp_all
  · split at h
    · simp_all
    · simp_all

theorem step3_of_strat3_some (ctx : LinkCtx) (ppn : String) (prev : Option String)
    (s : String) (hp : truthy prev = false) (h : strat3 ctx ppn = some s) :
    step3 ctx ppn prev = some s := by
  unfold strat3 at h
  unfold step3
  rw [hp]
  split at h
  · simp_all
  · exact absurd h (by simp)

theorem step3_falsy (ctx : LinkCtx) (ppn : String) (prev : Option String)
    (hp : truthy prev = false) (h : truthy (strat3 ctx ppn) = false) :
    truthy (step3 ctx ppn prev) = false := by
  unfold strat3 at h
  unfold step3
  rw [hp]
  split at h
  · simp_all
  · simp_all

theorem step4_of_strat4_some (ctx : LinkCtx) (ppn : String) (prev : Option String)
    (s : String) (hp : truthy prev = false) (h : strat4 ctx ppn = some s) :
    step4 ctx ppn prev = some s := by
  unfold strat4 at h
  unfold step4
  rw [hp]
  split at h
  · split at h
    · simp_all
    · exact absurd h (by simp)
  · exact absurd h (by simp)

/-- The rewritten link produced on successful resolution (mirrors the
`if frag:` branches of the source). -/
def linkRewrite (label frag s : String) : String :=
  if !(frag == "") then "[" ++ label ++ "](#" ++ s ++ "-" ++ slugify frag ++ ")"
  else "[" ++ label ++ "](#" ++ s ++ ")"

theorem repl_of_resolveChain_some (ctx : LinkCtx) (label target pp frag s : String)
    (h0 : pyStrip target = target)
    (h1 : split_link_target target = (pp, frag))
    (h2 : pyStrip pp = pp)
    (h3 : looks_like_url target = false)
    (h4 : (pp == "") = false)
    (h5 : strStartsWith pp "#" = false)
    (h6 : (strEndsWith (pyLower pp) ".md" || strEndsWith (pyLower pp) ".markdown") = true)
    (hc : resolveChain ctx pp (backslashToSlash pp) = some s)
    (hs : (s == "") = false) :
    repl ctx label target = linkRewrite label frag s := by
  simp only [repl, h0, h1, h3, h2, h4, h5, h6, hc, hs, linkRewrite]
  simp

/-- C2: for a link whose stripped target splits into a markdown path `pp` and
fragment `frag` (guards: not URL-like, non-empty, not a pure anchor, markdown
extension), the four resolution strategies are tried in source order with the
first (truthy) match winning, and on a match `s` the target is rewritten to
`#s` when no fragment is given and to `#s-slugify(frag)` when one is; a bare
filename shared by two or more corpus documents resolves nothing in
strategy 4. -/
theorem rewrite_links_strategy_cases (ctx : LinkCtx) (label target pp frag : String)
    (h0 : pyStrip target = target)
    (h1 : split_link_target target = (pp, frag))
    (h2 : pyStrip pp = pp)
    (h3 : looks_like_url target = false)
    (h4 : (pp == "") = false)
    (h5 : strStartsWith pp "#" = false)
    (h6 : (strEndsWith (pyLower pp) ".md" || strEndsWith (pyLower pp) ".markdown") = true) :
    (∀ s, strat1 ctx (backslashToSlash pp) = some s → (s == "") = false →
      repl ctx label target = linkRewrite label frag s) ∧
    (∀ s, truthy (strat1 ctx (backslashToSlash pp)) = false →
      strat2 ctx pp = some s → (s == "") = false →
      repl ctx label target = linkRewrite label frag s) ∧
    (∀ s, truthy (strat1 ctx (backslashToSlash pp)) = false →
      truthy (strat2 ctx pp) = false →
      strat3 ctx (backslashToSlash pp) = some s → (s == "") = false →
      repl ctx label target = linkRewrite label frag s) ∧
    (∀ s, truthy (strat1 ctx (backslashToSlash pp)) = false →
      truthy (strat2 ctx pp) = false →
      truthy (strat3 ctx (backslashToSlash pp)) = false →
      strat4 ctx (backslashToSlash pp) = some s → (s == "") = false →
      repl ctx label target = linkRewrite label frag s) ∧
    (2 ≤ (fileNameMatches ctx (backslashToSlash pp)).length →
      strat4 ctx (backslashToSlash pp) = none) := by
  refine ⟨?_, ?_, ?_, ?_, ?_⟩
  · intro s hs1 hs
    have htr : truthy (strat1 ctx (backslashToSlash pp)) = true := by
      simp [truthy, hs1, hs]
    have hc : resolveChain ctx pp (backslashToSlash pp) = some s := by
      unfold resolveChain
      rw [show step2 ctx pp (strat1 ctx (backslashToSlash pp)) = some s by
            rw [step2_keep ctx pp _ htr, hs1]]
      rw [step3_keep ctx _ _ (by simp [truthy, hs]), step4_keep ctx _ _ (by simp [truthy, hs])]
    exact repl_of_resolveChain_some ctx label target pp frag s h0 h1 h2 h3 h4 h5 h6 hc hs
  · intro s hf1 hs2 hs
    have hc : resolveChain ctx pp (backslashToSlash pp) = some s := by
      unfold resolveChain
      rw [step2_of_strat2_some ctx pp _ s hf1 hs2]
      rw [step3_keep ctx _ _ (by simp [truthy, hs]), step4_keep ctx _ _ (by simp [truthy, hs])]
    exact repl_of_resolveChain_some ctx label target pp frag s h0 h1 h2 h3 h4 h5 h6 hc hs
  · intro s hf1 hf2 hs3 hs
    have hc : resolveChain ctx pp (backslashToSlash pp) = some s := by
      unfold resolveChain
      rw [step3_of_strat3_some ctx _ _ s (step2_falsy ctx pp _ hf1 hf2) hs3]
      rw [step4_keep ctx _ _ (by simp [truthy, hs])]
    exact repl_of_resolveChain_some ctx label target pp frag s h0 h1 h2 h3 h4 h5 h6 hc hs
  · intro s hf1 hf2 hf3 hs4 hs
    have hc : resolveChain ctx pp (backslashToSlash pp) = some s := by
      unfold resolveChain
      exact step4_of_strat4_some ctx _ _ s
        (step3_falsy ctx _ _ (step2_falsy ctx pp _ hf1 hf2) hf3) hs4
    exact repl_of_resolveChain_some ctx label target pp frag s h0 h1 h2 h3 h4 h5 h6 hc hs
  · intro hlen
    unfold strat4
    split
    · split
      · rename_i x k heq
        rw [heq] at hlen
        simp at hlen
      · rfl
    · rfl

/-- Concrete resolution context for the link-resolution witnesses: corpus root
`/r/wiki` with six documents, current file `sub/b.md`. -/
def ctxA : LinkCtx :=
  ⟨["r", "wiki"],
   [("a.md", "sa"), ("sub/b.md", "sb"), ("c.md", "sc"),
    ("dup/x.md", "sx1"), ("dup2/x.md", "sx2"), ("only/z.md", "sz")], "sub/b.md"⟩

/-- Witness for C2: one concrete hit for each strategy (direct path, path
relative to the linking file's directory, root-name-prefixed path, unique bare
filename with a fragment), plus an ambiguous bare filename resolving nothing. -/
theorem rewrite_links_strategy_cases_witness :
    repl ctxA "l" "a.md" = "[l](#sa)" ∧
    repl ctxA "l" "../a.md" = "[l](#sa)" ∧
    repl ctxA "l" "wiki/c.md" = "[l](#sc)" ∧
    repl ctxA "l" "elsewhere/z.md#My Sec" = "[l](#sz-my-sec)" ∧
    strat4 ctxA (backslashToSlash "foo/x.md") = none := by
  refine ⟨?_, ?_, ?_, ?_, ?_⟩
  · exact ((rewrite_links_strategy_cases ctxA "l" "a.md" "a.md" "" (by decide) (by decide)
      (by decide) (by decide) (by decide) (by decide) (by decide)).1 "sa" (by decide)
      (by decide)).trans (by decide)
  · exact ((rewrite_links_strategy_cases ctxA "l" "../a.md" "../a.md" "" (by decide)
      (by decide) (by decide) (by decide) (by decide) (by decide) (by decide)).2.1 "sa"
      (by decide) (by decide) (by decide)).trans (by decide)
  · exact ((rewrite_links_strategy_cases ctxA "l" "wiki/c.md" "wiki/c.md" "" (by decide)
      (by decide) (by decide) (by decide) (by decide) (by decide) (by decide)).2.2.1 "sc"
      (by decide) (by decide) (by decide) (by decide)).trans (by decide)
  · exact ((rewrite_links_strategy_cases ctxA "l" "elsewhere/z.md#My Sec" "elsewhere/z.md"
      "My Sec" (by decide) (by decide) (by decide) (by decide) (by decide) (by decide)
      (by decide)).2.2.2.1 "sz" (by decide) (by decide) (by decide) (by decide)
      (by decide)).trans (by decide)
  · exact (rewrite_links_strategy_cases ctxA "l" "foo/x.md" "foo/x.md" "" (by decide)
      (by decide) (by decide) (by decide) (by decide) (by decide) (by decide)).2.2.2.2
      (by decide)

/-- C4: a link whose target no strategy resolves (the final `linked_slug` is
falsy) is emitted byte-for-byte unchanged; the embedded resolver is a total
function, so resolution cannot raise. -/
theorem repl_unresolved_unchanged (ctx : LinkCtx) (label target : String)
    (h : truthy (resolveChain ctx (pyStrip (split_link_target (pyStrip target)).1)
          (backslashToSlash (pyStrip (split_link_target (pyStrip target)).1))) = false) :
    repl ctx label target = "[" ++ label ++ "](" ++ target ++ ")" := by
  simp only [repl]
  split
  · rfl
  · split
    · rfl
    · split
      · rfl
      · split
        · rename_i s heq
          rw [heq] at h
          simp only [truthy, Bool.not_eq_false'] at h
          simp [h]
        · rfl

/-- Witness for C4: a link to a path with no corresponding corpus document is
unchanged. -/
theorem repl_unresolved_unchanged_witness :
    repl ctxA "x" "zzz.md" = "[x](zzz.md)" := by
  exact (repl_unresolved_unchanged ctxA "x" "zzz.md" (by decide)).trans (by decide)

/-! Lemmas for corpus-wide anchor-id counting (C1). -/

theorem rewrite_heading_line_assigns (file_slug : String) (counts : List (String × Nat))
    (line : String) :
    ((rewrite_heading_line file_slug counts line).2.2).isSome = isProcessedHeading line := by
  unfold rewrite_heading_line isProcessedHeading
  cases hm : atxMatch line with
  | none => rfl
  | some ht =>
    obtain ⟨hashes, title⟩ := ht
    by_cases hc : strContainsSub title "\x7b#" = true
    · simp [hc]
    · simp only [Bool.not_eq_true] at hc
      simp [hc]

theorem headingFold_ids_length (file_slug : String) (counts : List (String × Nat))
    (lines : List String) :
    ((headingFold file_slug counts lines).2).length = lines.countP isProcessedHeading := by
  induction lines generalizing counts with
  | nil => rfl
  | cons l ls ih =>
    have hassign := rewrite_heading_line_assigns file_slug counts l
    simp only [headingFold, List.countP_cons]
    cases hid : (rewrite_heading_line file_slug counts l).2.2 with
    | none =>
      rw [hid] at hassign
      simp only [Option.isSome_none] at hassign
      simp [hid, ← hassign, ih]
    | some i =>
      rw [hid] at hassign
      simp only [Option.isSome_some] at hassign
      simp [hid, ← hassign, ih]

/-- C1 counterexample: in the corpus with the single document `a.md` holding
the headings `x 2`, `x`, `x`, the per-document counter assigns the id
`<slug>-x-2` twice (once as the base id of `x 2`, once as the disambiguation
of the second `x`), so the N + headings assigned ids contain a duplicate and
the id set has only 3 members, not 4. -/
theorem corpus_anchor_ids_counterexample :
    (corpusAnchorIds [("a.md", "# x 2\n# x\n# x")]).length = 4 ∧
    ¬ (corpusAnchorIds [("a.md", "# x 2\n# x\n# x")]).Nodup := by
  have h : corpusAnchorIds [("a.md", "# x 2\n# x\n# x")] =
      ["amd-5d48a79a", "amd-5d48a79a-x-2", "amd-5d48a79a-x", "amd-5d48a79a-x-2"] := by
    rfl
  rw [h]
  constructor
  · rfl
  · decide

/-- C1 (amended): over any corpus, the list of all assigned anchor ids (one
top anchor per document plus one id per processed heading line) has exactly
N + (number of processed headings) entries; as the counterexample shows, the
entries need not be pairwise distinct. -/
theorem corpusAnchorIds_length (docs : List (String × String)) :
    (corpusAnchorIds docs).length =
      docs.length + (docs.map (fun d => processedHeadingCount d.2)).sum := by
  induction docs with
  | nil => rfl
  | cons d ds ih =>
    simp only [corpusAnchorIds, List.map_cons, List.flatten_cons, List.length_append] at ih ⊢
    rw [ih]
    simp only [docAnchorIds, List.length_cons, processedHeadingCount, List.sum_cons,
      headingFold_ids_length]
    omega

/-! Heading annotation reaches every heading-shaped line (C10). -/

theorem headingFold_annotates_aux (file_slug : String) :
    ∀ (lines : List String) (counts : List (String × Nat)) (i : Nat)
      (line hashes title : String),
      lines[i]? = some line →
      atxMatch line = some (hashes, title) →
      strContainsSub title "\x7b#" = false →
      ∃ hid, ((headingFold file_slug counts lines).1)[i]? =
        some (hashes ++ " " ++ pyStrip title ++ " \x7b#" ++ hid ++ "\x7d") := by
  intro lines
  induction lines with
  | nil =>
    intro counts i line hashes title h
    simp at h
  | cons l ls ih =>
    intro counts i line hashes title hline hm hn
    cases i with
    | zero =>
      simp only [List.getElem?_cons_zero, Option.some.injEq] at hline
      subst hline
      refine ⟨(make_unique_id counts (file_slug ++ "-" ++ slugify (pyStrip title))).1, ?_⟩
      simp only [headingFold]
      simp only [rewrite_heading_line, hm, hn]
      simp
    | succ j =>
      simp only [List.getElem?_cons_succ] at hline
      simp only [headingFold, List.getElem?_cons_succ]
      exact ih _ j line hashes title hline hm hn

/-- C10: the heading pass of `add_ids_and_rewrite_links` annotates every line
that matches the heading grammar and carries no explicit `{#` marker, with no
regard to surrounding fence context: the line at position `i` of the input
becomes `hashes ++ " " ++ strip(title) ++ " {#id}"` for some assigned id, even
when it lies inside a non-diagram fenced code block. -/
theorem heading_assignment_ignores_fences (file_slug text : String) (i : Nat)
    (line hashes title : String)
    (hline : (pySplitlines text)[i]? = some line)
    (hm : atxMatch line = some (hashes, title))
    (hn : strContainsSub title "\x7b#" = false) :
    ∃ hid, ((headingFold file_slug [] (pySplitlines text)).1)[i]? =
      some (hashes ++ " " ++ pyStrip title ++ " \x7b#" ++ hid ++ "\x7d") :=
  headingFold_annotates_aux file_slug (pySplitlines text) [] i line hashes title hline hm hn

/-- Witness for C10: a heading on the second line of a document, inside an
ordinary (non-mermaid) code fence, still receives an anchor id. -/
theorem heading_assignment_ignores_fences_witness :
    ∃ hid, ((headingFold "s" [] (pySplitlines "```\n# Hi\n```")).1)[1]? =
      some ("#" ++ " " ++ pyStrip "Hi" ++ " \x7b#" ++ hid ++ "\x7d") :=
  heading_assignment_ignores_fences "s" "```\n# Hi\n```" 1 "# Hi" "#" "Hi"
    (by decide) (by decide) (by decide)

/-! Lemmas for the unterminated-block abort (C9). -/

theorem splitBlock_none_of_no_end (ls : List String)
    (h : ∀ x ∈ ls, isFenceEnd x = false) : splitBlock ls = none := by
  induction ls with
  | nil => rfl
  | cons l t ih =>
    simp only [splitBlock]
    rw [h l (by simp)]
    simp [ih (fun x hx => h x (by simp [hx]))]

theorem splitBlock_eq (ls : List String) :
    ∀ (b r : List String), splitBlock ls = some (b, r) →
      ∃ e, isFenceEnd e = true ∧ ls = b ++ e :: r := by
  induction ls with
  | nil => intro b r h; simp [splitBlock] at h
  | cons l t ih =>
    intro b r h
    simp only [splitBlock] at h
    by_cases he : isFenceEnd l = true
    · rw [he] at h
      simp only [if_true, Option.some.injEq, Prod.mk.injEq] at h
      exact ⟨l, he, by rw [← h.1, ← h.2]; rfl⟩
    · simp only [Bool.not_eq_true] at he
      rw [he] at h
      simp only [Bool.false_eq_true, if_false, Option.map_eq_some'] at h
      obtain ⟨⟨b', r'⟩, hsb, heq⟩ := h
      obtain ⟨e, hee, ht⟩ := ih b' r' hsb
      simp only [Prod.mk.injEq] at heq
      exact ⟨e, hee, by rw [← heq.1, ← heq.2, ht]; rfl⟩

theorem mermaidFence_not_fenceEnd (l : String) (h : isMermaidFence l = true) :
    isFenceEnd l = false := by
  unfold isMermaidFence at h
  simp only [Bool.and_eq_true] at h
  obtain ⟨h1, h2, h3⟩ := h
  have hdata : (strDrop (pyLower l) 3).data = (l.data.drop 3).map lowerChar := by
    simp [strDrop, pyLower, List.map_drop]
  unfold strStartsWith at h2
  rw [hdata] at h2
  rw [List.isPrefixOf_iff_prefix] at h2
  obtain ⟨tail, htail⟩ := h2
  cases hdrop : l.data.drop 3 with
  | nil =>
    rw [hdrop] at htail
    simp at htail
  | cons c t =>
    rw [hdrop] at htail
    have hm7 : "mermaid".data = 'm' :: "ermaid".data := rfl
    rw [hm7] at htail
    simp only [List.map_cons, List.cons_append, List.cons.injEq] at htail
    have hcm : lowerChar c = 'm' := htail.1.symm
    have hns : isPySpace c = false := by
      unfold lowerChar at hcm
      by_cases hu : ('A' ≤ c && c ≤ 'Z') = true
      · simp only [Bool.and_eq_true, decide_eq_true_eq] at hu
        by_contra habs
        simp only [Bool.not_eq_false] at habs
        simp only [isPySpace, Bool.or_eq_true, decide_eq_true_eq] at habs
        rcases habs with (((((rfl | rfl) | rfl) | rfl) | rfl) | rfl) <;>
          exact absurd hu (by decide)
      · simp only [Bool.not_eq_true] at hu
        rw [hu] at hcm
        simp only [Bool.false_eq_true, if_false] at hcm
        subst hcm
        decide
    unfold isFenceEnd
    have hd3 : (strDrop l 3).data = c :: t := by simp [strDrop, hdrop]
    rw [hd3]
    simp [hns]

/-- If a line list decomposes both as `block ++ e :: rest` with `e` a closing
fence and as `pre ++ fl :: post` where `fl` is not a closing fence and no line
of `post` is one, then the closing fence lies strictly inside `pre`, and
`rest` still contains the `fl :: post` tail. -/
theorem unterminated_decomp (e fl : String) (post : List String)
    (he : isFenceEnd e = true) (hfl : isFenceEnd fl = false)
    (hpost : ∀ x ∈ post, isFenceEnd x = false) :
    ∀ (block pre rest : List String),
      block ++ e :: rest = pre ++ fl :: post →
      ∃ mid, rest = mid ++ fl :: post := by
  intro block
  induction block with
  | nil =>
    intro pre rest h
    cases pre with
    | nil =>
      simp only [List.nil_append, List.cons.injEq] at h
      rw [h.1] at he
      rw [he] at hfl
      simp at hfl
    | cons p pre' =>
      simp only [List.nil_append, List.cons_append, List.cons.injEq] at h
      exact ⟨pre', h.2⟩
  | cons b bt ih =>
    intro pre rest h
    cases pre with
    | nil =>
      simp only [List.cons_append, List.nil_append, List.cons.injEq] at h
      exfalso
      have hmem : e ∈ post := by
        rw [← h.2]
        simp
      rw [hpost e hmem] at he
      simp at he
    | cons p pre' =>
      simp only [List.cons_append, List.cons.injEq] at h
      exact ih pre' rest h.2

/-- The scan loop aborts (`none`) whenever the remaining lines contain a
mermaid fence line with no closing-fence line anywhere after it. -/
theorem renderGo_unterminated_aux (renderOk : Nat → String → Bool) (dir pfx : String)
    (fd : Option String) :
    ∀ (fuel : Nat) (ls pre post : List String) (fl : String) (idx : Nat),
      ls.length ≤ fuel →
      ls = pre ++ fl :: post →
      isMermaidFence fl = true →
      (∀ x ∈ post, isFenceEnd x = false) →
      renderGoF renderOk dir pfx fd fuel ls idx = none := by
  intro fuel
  induction fuel with
  | zero =>
    intro ls pre post fl idx hlen hsplit _ _
    subst hsplit
    simp at hlen
  | succ fuel ih =>
    intro ls pre post fl idx hlen hsplit hfence hnoend
    cases ls with
    | nil =>
      exact absurd hsplit.symm (by simp)
    | cons l t =>
      simp only [renderGoF]
      by_cases hl : isMermaidFence l = true
      · rw [hl]
        simp only [if_true]
        cases hsb : splitBlock t with
        | none => rfl
        | some br =>
          obtain ⟨block, rest⟩ := br
          obtain ⟨e, he, ht⟩ := splitBlock_eq t block rest hsb
          cases pre with
          | nil =>
            simp only [List.nil_append, List.cons.injEq] at hsplit
            exfalso
            have hmem : e ∈ post := by
              rw [← hsplit.2, ht]
              simp
            rw [hnoend e hmem] at he
            simp at he
          | cons p0 pre' =>
            simp only [List.cons_append, List.cons.injEq] at hsplit
            have ht2 : block ++ e :: rest = pre' ++ fl :: post := by
              rw [← ht, ← hsplit.2]
            obtain ⟨mid, hrest⟩ := unterminated_decomp e fl post he
              (mermaidFence_not_fenceEnd fl hfence) hnoend block pre' rest ht2
            have hlenrest : rest.length ≤ fuel := by
              have h1 : t.length ≤ fuel := by
                simp only [List.length_cons] at hlen
                omega
              have h2 : t.length = block.length + 1 + rest.length := by
                rw [ht]
                simp
                omega
              omega
            have hnone := ih rest mid post fl (idx + 1) hlenrest hrest hfence hnoend
            simp [hnone]
      · simp only [Bool.not_eq_true] at hl
        rw [hl]
        simp only [Bool.false_eq_true, if_false]
        cases pre with
        | nil =>
          simp only [List.nil_append, List.cons.injEq] at hsplit
          rw [hsplit.1] at hl
          rw [hfence] at hl
          simp at hl
        | cons p0 pre' =>
          simp only [List.cons_append, List.cons.injEq] at hsplit
          have hlent : t.length ≤ fuel := by
            simp only [List.length_cons] at hlen
            omega
          rw [ih t pre' post fl idx hlent hsplit.2 hfence hnoend]
          rfl

/-- C9: a document containing a mermaid fence line that is never followed by a
closing fence line makes `render_mermaid_blocks` abort with the fatal error
(`none`, modelling `die`, which exits non-zero before any combined output is
produced). -/
theorem render_unterminated_fatal (renderOk : Nat → String → Bool) (dir pfx : String)
    (fd : Option String) (md_text : String) (pre post : List String) (fl : String)
    (hsplit : pySplitlines md_text = pre ++ fl :: post)
    (hfence : isMermaidFence fl = true)
    (hnoend : ∀ x ∈ post, isFenceEnd x = false) :
    render_mermaid_blocks renderOk dir pfx fd md_text = none := by
  simp only [render_mermaid_blocks]
  rw [renderGo_unterminated_aux renderOk dir pfx fd (pySplitlines md_text).length
    (pySplitlines md_text) pre post fl 0 (Nat.le_refl _) hsplit hfence hnoend]
  rfl

/-- Witness for C9: a two-line document whose mermaid fence is never closed is
fatal. -/
theorem render_unterminated_fatal_witness :
    render_mermaid_blocks (fun _ _ => true) "d" "p" none "```mermaid\nA" = none :=
  render_unterminated_fatal (fun _ _ => true) "d" "p" none "```mermaid\nA"
    [] ["A"] "```mermaid" (by decide) (by decide) (by decide)

/-! Lemmas on the slug's hash suffix (C3). -/

theorem stringDataInj (a b : String) (h : a.data = b.data) : a = b := by
  cases a with
  | mk d1 => cases b with
    | mk d2 => exact congrArg String.mk (by simpa using h)

theorem sha1hex_data_length (s : String) : (sha1hex s).data.length = 40 := by
  simp [sha1hex, sha1HexBytes, hexWord]

theorem strTake_sha1hex_data_length (s : String) :
    (strTake (sha1hex s) 8).data.length = 8 := by
  simp only [strTake]
  show ((sha1hex s).data.take 8).length = 8
  rw [List.length_take, sha1hex_data_length]
  rfl

theorem strTake_sha1hex_length (s : String) :
    (strTake (sha1hex s) 8).length = 8 :=
  strTake_sha1hex_data_length s

/-- C3 counterexample: the assigned slug is not
`slugify(relativePath) + "-" + first8HexOfSHA1(relativePath)` — the source
slugifies the path with `/` replaced by a space, which differs at `a/b.md`
(`a-bmd-…` vs `abmd-…`); and distinct relative paths can collide, exhibited by
two paths that slugify identically and share their first 8 SHA-1 hex digits. -/
theorem safe_file_slug_claim_counterexample :
    safe_file_slug "a/b.md" ≠
        slugify "a/b.md" ++ "-" ++ strTake (sha1hex "a/b.md") 8 ∧
    (safe_file_slug "doc.?!:!!!" = safe_file_slug "doc?!:;:::" ∧
      ("doc.?!:!!!" : String) ≠ "doc?!:;:::") := by
  refine ⟨?_, ?_, by decide⟩
  · have h1 : safe_file_slug "a/b.md" = "a-bmd-c5c408ab" := by rfl
    have h2 : slugify "a/b.md" ++ "-" ++ strTake (sha1hex "a/b.md") 8 =
        "abmd-c5c408ab" := by rfl
    rw [h1, h2]
    decide
  · have h1 : safe_file_slug "doc.?!:!!!" = "doc-69901986" := by rfl
    have h2 : safe_file_slug "doc?!:;:::" = "doc-69901986" := by rfl
    rw [h1, h2]

/-- C3 (amended): the assigned DocumentSlug equals
`slugify(relativePath with "/" replaced by " ") + "-" + first8HexOfSHA1(relativePath)`;
it is a pure function of the relative path alone (so re-running on an
unchanged corpus reproduces it), and two relative paths whose first 8 SHA-1
hex digits differ always receive distinct slugs (full injectivity would
require the truncated hash to be collision-free, which it is not). -/
theorem safe_file_slug_spec :
    (∀ rel : String, safe_file_slug rel =
        slugify (String.mk (rel.data.map (fun c => if c = '/' then ' ' else c))) ++ "-" ++
          strTake (sha1hex rel) 8) ∧
    (∀ r1 r2 : String, strTake (sha1hex r1) 8 ≠ strTake (sha1hex r2) 8 →
        safe_file_slug r1 ≠ safe_file_slug r2) := by
  constructor
  · intro rel
    rfl
  · intro r1 r2 hh heq
    apply hh
    have hd := congrArg String.data heq
    simp only [safe_file_slug, String.data_append, List.append_assoc] at hd
    have hinj := List.append_inj' hd (by
      simp [List.length_append, strTake_sha1hex_length])
    have hdata : (strTake (sha1hex r1) 8).data = (strTake (sha1hex r2) 8).data := by
      have := hinj.2
      simpa using this
    exact stringDataInj _ _ hdata

/-- Witness for C3: two concrete relative paths with different hash prefixes
receive distinct slugs. -/
theorem safe_file_slug_spec_witness :
    strTake (sha1hex "a.md") 8 ≠ strTake (sha1hex "b.md") 8 ∧
    safe_file_slug "a.md" ≠ safe_file_slug "b.md" := by
  constructor
  · decide
  · exact safe_file_slug_spec.2 "a.md" "b.md" (by decide)

end Pelagia
